import Mathlib

/-!
Verification of the CKAN test-helper module (`ckan/new_tests/helpers.py`).

The module under verification is a small collection of test-support helpers:

* `webtest_submit_fields` — a backported form-submission field collector that
  walks a form's fields in declaration order, selects a submit button either
  by index or by value among the fields sharing the submit name, and collects
  all other field values;
* `call_action` — dispatches to a named action function after inserting
  default `user` / `ignore_auth` entries into the caller's context dict;
* `call_auth` — dispatches to a named auth function after asserting that the
  context contains `user` and `model` keys;
* `FunctionalTestBaseClass` — snapshots the global configuration on class
  setup and restores it on class teardown.

Python values that can appear as form-field values are modelled by `PyVal`
(None, a string, or a list of strings); dicts are modelled by association
lists in insertion order, matching Python dict iteration-order semantics;
exceptions are modelled with `Except`.
-/

/-- A Python value as it appears in webtest form fields: `None`, a string,
or a list of strings. -/
inductive PyVal where
  | none
  | str (s : String)
  | list (xs : List String)
deriving DecidableEq, Repr

/-- A webtest form field, as observed by `webtest_submit_fields`:
its `value` attribute, the result of its `value_if_submitted()` method,
whether it is an instance of `webtest.app.File`, and whether it is a submit
button (an instance of `Submit`; the submit-field collector itself never
inspects this flag — it selects by field *name* — but claims about the
helper refer to it). -/
structure FormField where
  is_submit : Bool
  is_file : Bool
  value : PyVal
  value_if_submitted : PyVal
deriving DecidableEq, Repr

/-- An item of the collected field list: either a plain value (a string, or
`None` when `value_if_submitted()` returned None), or a `File` field passed
through unchanged. -/
inductive OutItem where
  | pv (v : PyVal)
  | fld (f : FormField)
deriving DecidableEq, Repr

/-- A webtest form, reduced to what `webtest_submit_fields` reads from it:
`field_order`, the list of (name, field) pairs in declaration order.  A
name may be `None` (such fields are skipped). -/
structure Form where
  field_order : List (Option String × FormField)
deriving DecidableEq, Repr

/-- A Python exception raised by the helpers: `ValueError` or
`AssertionError`, each with its message. -/
inductive PyError where
  | valueError (msg : String)
  | assertionError (msg : String)
deriving DecidableEq, Repr

/-- The `for name, field in form.field_order:` loop body of
`webtest_submit_fields`, accumulating the `submit` list.  `current_index`
counts the fields whose name equals the submit name (all of them, not just
submit fields — as the source comment notes).  For a field whose name
matches the submit name, an entry is appended when the running index equals
the target `index`, and when `value_if_submitted()` equals the target
`submit_value`.  Any other named field contributes its `value`: `None`
values are skipped, `File` fields are passed through unchanged, list values
are expanded one entry per element, and other values give a single entry. -/
def submit_fields_loop (submit_name : Option String) (index : Option Nat)
    (submit_value : Option PyVal) :
    List (Option String × FormField) → Nat → List (String × OutItem)
  | [], _ => []
  | (field_name, field) :: rest, current_index =>
    match field_name with
    | Option.none => submit_fields_loop submit_name index submit_value rest current_index
    | Option.some name =>
      if submit_name = Option.some name then
        ((match index with
          | Option.some i =>
            if current_index = i then [(name, OutItem.pv field.value_if_submitted)] else []
          | Option.none => []) ++
         (match submit_value with
          | Option.some v =>
            if field.value_if_submitted = v then [(name, OutItem.pv field.value_if_submitted)]
            else []
          | Option.none => []) ++
         submit_fields_loop submit_name index submit_value rest (current_index + 1))
      else
        match field.value with
        | PyVal.none => submit_fields_loop submit_name index submit_value rest current_index
        | PyVal.str s =>
          if field.is_file then
            (name, OutItem.fld field) ::
              submit_fields_loop submit_name index submit_value rest current_index
          else
            (name, OutItem.pv (PyVal.str s)) ::
              submit_fields_loop submit_name index submit_value rest current_index
        | PyVal.list xs =>
          if field.is_file then
            (name, OutItem.fld field) ::
              submit_fields_loop submit_name index submit_value rest current_index
          else
            (xs.map fun item => (name, OutItem.pv (PyVal.str item))) ++
              submit_fields_loop submit_name index submit_value rest current_index

/-- `webtest_submit_fields(form, name, index, submit_value)`: raises
`ValueError` when both `index` and `submit_value` are given; defaults the
index to 0 when neither is given ("If no particular button was selected,
use the first one"); then walks the field list collecting the submitted
fields. -/
def webtest_submit_fields (form : Form) (name : Option String)
    (index : Option Nat) (submit_value : Option PyVal) :
    Except PyError (List (String × OutItem)) :=
  let submit_name := name
  if index.isSome && submit_value.isSome then
    Except.error (PyError.valueError "Cant specify both submit_value and index.")
  else
    let index := if index.isNone && submit_value.isNone then Option.some 0 else index
    Except.ok (submit_fields_loop submit_name index submit_value form.field_order 0)

/-- The fields of a form that carry a given name, in declaration order.
The running `current_index` of the loop numbers exactly these fields. -/
def sameNamed (nm : String) (fields : List (Option String × FormField)) : List FormField :=
  fields.filterMap fun p => if p.1 = Option.some nm then Option.some p.2 else Option.none

/-- The contribution of a single non-submit-name field to the collected
list: nothing for a `None` value, the field itself for a `File` field, one
entry per element for a list value, and a single entry otherwise.  This is
the else-branch of the loop, per field. -/
def field_submission (name : String) (field : FormField) : List (String × OutItem) :=
  match field.value with
  | PyVal.none => []
  | PyVal.str s =>
    if field.is_file then [(name, OutItem.fld field)]
    else [(name, OutItem.pv (PyVal.str s))]
  | PyVal.list xs =>
    if field.is_file then [(name, OutItem.fld field)]
    else xs.map fun item => (name, OutItem.pv (PyVal.str item))

/-- The entries contributed by the fields whose name differs from the
submit name, in declaration order: each unnamed field contributes nothing,
each field carrying the submit name contributes nothing here, and every
other field contributes its `field_submission`. -/
def nonsubmit_entries (submit_name : Option String)
    (fields : List (Option String × FormField)) : List (String × OutItem) :=
  fields.flatMap fun p =>
    match p.1 with
    | Option.none => []
    | Option.some n =>
      if submit_name = Option.some n then [] else field_submission n p.2

/-- A Python value stored in a context or configuration dict: a string, a
boolean, or an opaque object (a mock model, a nested mapping, ...)
identified by a tag. -/
inductive PyObj where
  | str (s : String)
  | bool (b : Bool)
  | obj (tag : Nat)
deriving DecidableEq, Repr

/-- A Python dict with string keys, modelled as its items in insertion
order (a real dict never has duplicate keys). -/
abbrev PyDict := List (String × PyObj)

/-- `k in d`. -/
def PyDict.hasKey (d : PyDict) (k : String) : Bool :=
  d.any fun p => decide (p.1 = k)

/-- `d[k]`, as an option: the value at the key, if present. -/
def PyDict.get : PyDict → String → Option PyObj
  | [], _ => Option.none
  | p :: rest, k => if p.1 = k then Option.some p.2 else PyDict.get rest k

/-- `d.setdefault(k, v)`: leave the dict unchanged when the key is present,
otherwise append the pair (Python dicts keep insertion order); the mutation
happens in place on the caller's dict. -/
def PyDict.setdefault (d : PyDict) (k : String) (v : PyObj) : PyDict :=
  if PyDict.hasKey d k then d else d ++ [(k, v)]

/-- `d[k] = v`: replace the value in place when the key is present (its
position is kept), otherwise append. -/
def PyDict.set : PyDict → String → PyObj → PyDict
  | [], k, v => [(k, v)]
  | p :: rest, k, v => if p.1 = k then (p.1, v) :: rest else p :: PyDict.set rest k v

/-- `del d[k]`. -/
def PyDict.del (d : PyDict) (k : String) : PyDict :=
  d.filter fun p => !(decide (p.1 = k))

/-- `d.clear()`. -/
def PyDict.clear (_ : PyDict) : PyDict := []

/-- `dst.update(src)`: assign every item of `src` into `dst`, in `src`'s
iteration order. -/
def PyDict.update (dst src : PyDict) : PyDict :=
  src.foldl (fun acc p => PyDict.set acc p.1 p.2) dst

/-- `call_action(action_name, context=None, **kwargs)`: default the context
to `{}` when it is None, insert the `user` and `ignore_auth` defaults with
`setdefault`, and dispatch to the registered action with that context and
the keyword arguments as the data dict.  `get_action` models the external
`ckan.logic.get_action` registry; the action's result type is opaque to the
helper.  The second component of the result is the context dict as the
caller observes it after the call: `setdefault` mutates the caller's dict
in place, so the dict handed to the action is the caller's own dict. -/
def call_action {ρ : Type} (get_action : String → PyDict → PyDict → ρ)
    (action_name : String) (context : Option PyDict) (kwargs : PyDict) : ρ × PyDict :=
  let context := match context with
    | Option.none => []
    | Option.some c => c
  let context := PyDict.setdefault context "user" (PyObj.str "127.0.0.1")
  let context := PyDict.setdefault context "ignore_auth" (PyObj.bool true)
  (get_action action_name context kwargs, context)

/-- `call_auth(auth_name, context, **kwargs)`: assert that the context
contains the `user` and `model` keys (raising `AssertionError` with the
corresponding message otherwise, before any dispatch), then look the auth
function up by name and dispatch to it, returning its result unchanged.
`auth_registry` models attribute lookup on `ckan.logic.auth.update`. -/
def call_auth {ρ : Type} (auth_registry : String → PyDict → PyDict → ρ)
    (auth_name : String) (context : PyDict) (kwargs : PyDict) : Except PyError ρ :=
  if PyDict.hasKey context "user" then
    if PyDict.hasKey context "model" then
      Except.ok (auth_registry auth_name context kwargs)
    else
      Except.error (PyError.assertionError
        "Test methods must put a model in the context dict")
  else
    Except.error (PyError.assertionError
      "Test methods must put a user name in the context dict")

/-- The state a functional test class keeps between `setup_class` and
`teardown_class`: the global config as mutated so far, and the snapshot
`cls.original_config` taken at the start of `setup_class`. -/
structure TestClassState where
  config : PyDict
  original_config : PyDict
deriving DecidableEq, Repr

/-- `_get_test_app`, as it affects the global config: sets
`ckan.legacy_templates` to False (building the middleware stack and the
test client happens in the external libraries). -/
def get_test_app_config (config : PyDict) : PyDict :=
  PyDict.set config "ckan.legacy_templates" (PyObj.bool false)

/-- `FunctionalTestBaseClass.setup_class`: copy the config as the snapshot,
apply the class's overridable `_apply_config_changes`, then build the test
app (which sets the legacy-templates key). -/
def setup_class (apply_config_changes : PyDict → PyDict) (config : PyDict) :
    TestClassState :=
  let original_config := config
  let config := apply_config_changes config
  let config := get_test_app_config config
  ⟨config, original_config⟩

/-- `FunctionalTestBaseClass.teardown_class`: `config.clear()` followed by
`config.update(cls.original_config)`. -/
def teardown_class (st : TestClassState) : PyDict :=
  PyDict.update (PyDict.clear st.config) st.original_config

/-- One mutation of the global config performed by test code between class
setup and class teardown: set or delete a key. -/
inductive ConfigOp where
  | set (k : String) (v : PyObj)
  | del (k : String)
deriving DecidableEq, Repr

/-- Apply a sequence of config mutations in order. -/
def applyConfigOps (config : PyDict) : List ConfigOp → PyDict
  | [] => config
  | ConfigOp.set k v :: ops => applyConfigOps (PyDict.set config k v) ops
  | ConfigOp.del k :: ops => applyConfigOps (PyDict.del config k) ops

/-- A stand-in registry for witnesses: every name maps to a function
returning the fixed dict `d`. -/
def constRegistry (d : PyDict) : String → PyDict → PyDict → PyDict :=
  fun _ _ _ => d

/-- A context with only a user key. -/
def ctxUserOnly : PyDict := [("user", PyObj.str "fred")]

/-- A context with user and model keys. -/
def ctxUserModel : PyDict := [("user", PyObj.str "fred"), ("model", PyObj.obj 0)]

/-- A caller-supplied context with neither defaulted key. -/
def ctxApikey : PyDict := [("apikey", PyObj.str "xyz")]

/-- A concrete global configuration with distinct keys. -/
def cfg0 : PyDict :=
  [("sqlalchemy.url", PyObj.str "sqlite://"), ("ckan.site_title", PyObj.str "CKAN")]

/-- A submit button named `save` with submitted value `A` (constructor
order: is_submit, is_file, value, value_if_submitted; webtest submit
buttons report `value = None` outside a submission). -/
def saveButtonA : FormField := ⟨true, false, PyVal.none, PyVal.str "A"⟩

/-- A submit button with submitted value `B`. -/
def saveButtonB : FormField := ⟨true, false, PyVal.none, PyVal.str "B"⟩

/-- An ordinary text field with a scalar value. -/
def titleField : FormField := ⟨false, false, PyVal.str "My Title", PyVal.none⟩

/-- A select-multiple field with a list value. -/
def tagsField : FormField := ⟨false, false, PyVal.list ["a", "b"], PyVal.none⟩

/-- A field whose value is `None` (e.g. an unchecked checkbox). -/
def noneValuedField : FormField := ⟨false, false, PyVal.none, PyVal.none⟩

/-- A concrete form: a title field, a list-valued tags field, and two
submit buttons sharing the name `save`. -/
def form0 : Form :=
  ⟨[(Option.some "title", titleField), (Option.some "tags", tagsField),
    (Option.some "save", saveButtonA), (Option.some "save", saveButtonB)]⟩

/-- Claim C3: calling `webtest_submit_fields` with both `index` and
`submit_value` non-None raises `ValueError` — for every form, before any
field is processed: the result is the same error whatever the form's
fields, and no output entry is produced. -/
theorem C3_both_index_and_value_is_ValueError (form : Form) (name : Option String)
    (i : Nat) (v : PyVal) :
    webtest_submit_fields form name (Option.some i) (Option.some v) =
      Except.error (PyError.valueError "Cant specify both submit_value and index.") := rfl

/-! ### Unfolding lemmas for the field-collection loop -/

theorem submit_fields_loop_nil (sn : Option String) (idx : Option Nat) (sv : Option PyVal)
    (c : Nat) : submit_fields_loop sn idx sv [] c = [] := rfl

theorem submit_fields_loop_cons_noname (sn : Option String) (idx : Option Nat)
    (sv : Option PyVal) (f : FormField) (rest : List (Option String × FormField)) (c : Nat) :
    submit_fields_loop sn idx sv ((Option.none, f) :: rest) c =
      submit_fields_loop sn idx sv rest c := rfl

/-- Processing a field whose name equals the submit name: append a hit when
the running index matches the target index, a hit when the submitted value
matches the target value, and continue with the running index bumped. -/
theorem submit_fields_loop_cons_submit (idx : Option Nat) (sv : Option PyVal) (nm : String)
    (f : FormField) (rest : List (Option String × FormField)) (c : Nat) :
    submit_fields_loop (Option.some nm) idx sv ((Option.some nm, f) :: rest) c =
      (match idx with
        | Option.some i => if c = i then [(nm, OutItem.pv f.value_if_submitted)] else []
        | Option.none => []) ++
      (match sv with
        | Option.some v =>
          if f.value_if_submitted = v then [(nm, OutItem.pv f.value_if_submitted)] else []
        | Option.none => []) ++
      submit_fields_loop (Option.some nm) idx sv rest (c + 1) := by
  simp [submit_fields_loop]

/-- Processing a field whose name differs from the submit name contributes
`field_submission` and leaves the running index unchanged. -/
theorem submit_fields_loop_cons_other (sn : Option String) (idx : Option Nat)
    (sv : Option PyVal) (name : String) (f : FormField)
    (rest : List (Option String × FormField)) (c : Nat) (h : sn ≠ Option.some name) :
    submit_fields_loop sn idx sv ((Option.some name, f) :: rest) c =
      field_submission name f ++ submit_fields_loop sn idx sv rest c := by
  obtain ⟨fs, ff, fv, fvs⟩ := f
  cases fv <;> cases ff <;> simp [submit_fields_loop, field_submission, h]

/-- Every entry contributed by a non-submit-name field carries that field's
name. -/
theorem field_submission_fst (name : String) (f : FormField) :
    ∀ e ∈ field_submission name f, e.1 = name := by
  obtain ⟨fs, ff, fv, fvs⟩ := f
  cases fv <;> cases ff <;> simp [field_submission]

/-- Filtering the contribution of a non-submit-name field for entries whose
name equals `nm` keeps all of it or none of it. -/
theorem field_submission_filter_eq (name nm : String) (f : FormField) :
    (field_submission name f).filter (fun e => decide (e.1 = nm)) =
      if name = nm then field_submission name f else [] := by
  by_cases hp : name = nm
  · rw [if_pos hp]
    exact List.filter_eq_self.mpr fun e he => by
      rw [field_submission_fst name f e he]; simp [hp]
  · rw [if_neg hp]
    exact List.filter_eq_nil_iff.mpr fun e he => by
      rw [field_submission_fst name f e he]; simp [hp]

/-- Filtering the contribution of a non-submit-name field for entries whose
name differs from `nm` keeps none of it or all of it. -/
theorem field_submission_filter_ne (name nm : String) (f : FormField) :
    (field_submission name f).filter (fun e => decide (e.1 ≠ nm)) =
      if name = nm then [] else field_submission name f := by
  by_cases hp : name = nm
  · rw [if_pos hp]
    exact List.filter_eq_nil_iff.mpr fun e he => by
      rw [field_submission_fst name f e he]; simp [hp]
  · rw [if_neg hp]
    exact List.filter_eq_self.mpr fun e he => by
      rw [field_submission_fst name f e he]; simp [hp]

/-- Under index selection, once the running index has passed the target
index no further entry for the submit name is produced. -/
theorem filter_loop_index_past (nm : String) (i : Nat) :
    ∀ (fields : List (Option String × FormField)) (c : Nat), i < c →
    (submit_fields_loop (Option.some nm) (Option.some i) Option.none fields c).filter
        (fun e => decide (e.1 = nm)) = [] := by
  intro fields
  induction fields with
  | nil => intro c _; simp [submit_fields_loop]
  | cons p rest ih =>
    intro c hc
    obtain ⟨fn, f⟩ := p
    cases fn with
    | none => rw [submit_fields_loop_cons_noname]; exact ih c hc
    | some name =>
      by_cases hn : name = nm
      · subst hn
        rw [submit_fields_loop_cons_submit]
        have hne : c ≠ i := by omega
        simp only [if_neg hne, List.nil_append, List.append_nil]
        exact ih (c + 1) (by omega)
      · rw [submit_fields_loop_cons_other _ _ _ _ _ _ _ (fun h => hn (Option.some.inj h).symm)]
        rw [List.filter_append, field_submission_filter_eq, if_neg hn, List.nil_append]
        exact ih c hc

/-- Under index selection with target index `i` and running index `c ≤ i`,
the entries produced for the submit name are exactly the submitted value of
the field at offset `i - c` among the remaining same-named fields (none if
there is no such field). -/
theorem filter_loop_index (nm : String) (i : Nat) :
    ∀ (fields : List (Option String × FormField)) (c : Nat), c ≤ i →
    (submit_fields_loop (Option.some nm) (Option.some i) Option.none fields c).filter
        (fun e => decide (e.1 = nm)) =
      ((sameNamed nm fields)[i - c]?).toList.map
        (fun f => (nm, OutItem.pv f.value_if_submitted)) := by
  intro fields
  induction fields with
  | nil => intro c _; simp [submit_fields_loop, sameNamed]
  | cons p rest ih =>
    intro c hc
    obtain ⟨fn, f⟩ := p
    cases fn with
    | none =>
      rw [submit_fields_loop_cons_noname]
      rw [ih c hc]
      simp [sameNamed, List.filterMap_cons]
    | some name =>
      by_cases hn : name = nm
      · subst hn
        rw [submit_fields_loop_cons_submit]
        have hsame : sameNamed name ((Option.some name, f) :: rest) = f :: sameNamed name rest := by
          simp [sameNamed, List.filterMap_cons]
        rw [hsame]
        by_cases hci : c = i
        · subst hci
          simp only [if_pos rfl, List.nil_append, List.append_nil, Nat.sub_self]
          rw [List.filter_append, filter_loop_index_past name c rest (c + 1) (by omega)]
          simp
        · have hlt : c < i := by omega
          simp only [if_neg hci, List.nil_append, List.append_nil]
          rw [ih (c + 1) (by omega)]
          have : i - c = (i - (c + 1)) + 1 := by omega
          rw [this, List.getElem?_cons_succ]
      · rw [submit_fields_loop_cons_other _ _ _ _ _ _ _ (fun h => hn (Option.some.inj h).symm)]
        rw [List.filter_append, field_submission_filter_eq, if_neg hn, List.nil_append]
        rw [ih c hc]
        have hsame : sameNamed nm ((Option.some name, f) :: rest) = sameNamed nm rest := by
          simp [sameNamed, List.filterMap_cons, hn]
        rw [hsame]

/-- Claim C1: on a form whose fields named `nm` are submit buttons with
pairwise distinct submitted values, selecting by index `i` produces an
output whose entries named `nm` are exactly one entry carrying the
submitted value of the `i`-th same-named field (zero-based, declaration
order); no other submit button of that name contributes an entry. -/
theorem C1_index_selects_ith (form : Form) (nm : String) (i : Nat) (bf : FormField)
    (hsub : ∀ f ∈ sameNamed nm form.field_order, f.is_submit = true)
    (hdist : ((sameNamed nm form.field_order).map FormField.value_if_submitted).Nodup)
    (hi : (sameNamed nm form.field_order)[i]? = Option.some bf) :
    ∃ out, webtest_submit_fields form (Option.some nm) (Option.some i) Option.none =
        Except.ok out ∧
      out.filter (fun e => decide (e.1 = nm)) = [(nm, OutItem.pv bf.value_if_submitted)] := by
  refine ⟨submit_fields_loop (Option.some nm) (Option.some i) Option.none form.field_order 0,
    by simp [webtest_submit_fields], ?_⟩
  rw [filter_loop_index nm i form.field_order 0 (Nat.zero_le i)]
  simp [hi]

/-- Witness for C1 on the concrete `form0`: index 1 among the `save`
buttons selects exactly button B. -/
theorem C1_witness :
    ∃ out, webtest_submit_fields form0 (Option.some "save") (Option.some 1) Option.none =
        Except.ok out ∧
      out.filter (fun e => decide (e.1 = "save")) =
        [("save", OutItem.pv (PyVal.str "B"))] :=
  C1_index_selects_ith form0 "save" 1 saveButtonB (by decide) (by decide) (by decide)

/-- Index selection and value selection run the same loop when, among the
remaining same-named fields, the target value occurs exactly at the offset
that makes the running index hit the target index. -/
theorem loop_index_eq_loop_value (nm : String) (i : Nat) (v : PyVal) :
    ∀ (fields : List (Option String × FormField)) (c : Nat),
    (∀ (j : Nat) (f : FormField), (sameNamed nm fields)[j]? = Option.some f →
        (f.value_if_submitted = v ↔ c + j = i)) →
    submit_fields_loop (Option.some nm) (Option.some i) Option.none fields c =
      submit_fields_loop (Option.some nm) Option.none (Option.some v) fields c := by
  intro fields
  induction fields with
  | nil => intro c _; rfl
  | cons p rest ih =>
    intro c H
    obtain ⟨fn, f⟩ := p
    cases fn with
    | none =>
      rw [submit_fields_loop_cons_noname, submit_fields_loop_cons_noname]
      exact ih c fun j f' hj =>
        H j f' (by simpa [sameNamed, List.filterMap_cons] using hj)
    | some name =>
      by_cases hn : name = nm
      · subst hn
        rw [submit_fields_loop_cons_submit, submit_fields_loop_cons_submit]
        have hsame : sameNamed name ((Option.some name, f) :: rest) =
            f :: sameNamed name rest := by
          simp [sameNamed, List.filterMap_cons]
        have H0 : f.value_if_submitted = v ↔ c = i := by
          have h0 := H 0 f (by rw [hsame]; simp)
          simpa using h0
        have Hrec := ih (c + 1) (fun j f' hj => by
          have hj1 := H (j + 1) f' (by rw [hsame]; simpa using hj)
          constructor
          · intro hv; have := hj1.mp hv; omega
          · intro hc; exact hj1.mpr (by omega))
        rw [Hrec]
        by_cases hci : c = i
        · have hfv := H0.mpr hci
          simp [hci, hfv]
        · have hnv : ¬ f.value_if_submitted = v := fun hv => hci (H0.mp hv)
          simp [hci, hnv]
      · rw [submit_fields_loop_cons_other _ _ _ _ _ _ _
              (fun h => hn (Option.some.inj h).symm),
            submit_fields_loop_cons_other _ _ _ _ _ _ _
              (fun h => hn (Option.some.inj h).symm)]
        rw [ih c fun j f' hj =>
          H j f' (by simpa [sameNamed, List.filterMap_cons, hn] using hj)]

/-- Claim C2: on a form whose same-named submit buttons have pairwise
distinct submitted values, selecting by index `i` and selecting by the
value of the `i`-th same-named button produce the same result. -/
theorem C2_value_selection_matches_index (form : Form) (nm : String) (i : Nat)
    (bf : FormField)
    (hsub : ∀ f ∈ sameNamed nm form.field_order, f.is_submit = true)
    (hdist : ((sameNamed nm form.field_order).map FormField.value_if_submitted).Nodup)
    (hi : (sameNamed nm form.field_order)[i]? = Option.some bf) :
    webtest_submit_fields form (Option.some nm) (Option.some i) Option.none =
      webtest_submit_fields form (Option.some nm) Option.none
        (Option.some bf.value_if_submitted) := by
  have hmain : submit_fields_loop (Option.some nm) (Option.some i) Option.none
      form.field_order 0 =
      submit_fields_loop (Option.some nm) Option.none
        (Option.some bf.value_if_submitted) form.field_order 0 := by
    apply loop_index_eq_loop_value
    intro j f' hj
    have hjlen : j < (sameNamed nm form.field_order).length :=
      (List.getElem?_eq_some_iff.mp hj).1
    constructor
    · intro hv
      have h1 : ((sameNamed nm form.field_order).map FormField.value_if_submitted)[j]? =
          Option.some f'.value_if_submitted := by rw [List.getElem?_map, hj]; rfl
      have h2 : ((sameNamed nm form.field_order).map FormField.value_if_submitted)[i]? =
          Option.some bf.value_if_submitted := by rw [List.getElem?_map, hi]; rfl
      have hji : j = i :=
        List.getElem?_inj (by simpa using hjlen) hdist (by rw [h1, h2, hv])
      omega
    · intro hc
      have hji : j = i := by omega
      subst hji
      rw [hj] at hi
      exact congrArg FormField.value_if_submitted (Option.some.inj hi)
  simp [webtest_submit_fields, hmain]

/-- Witness for C2 on the concrete `form0`: selecting the `save` buttons by
index 1 equals selecting them by the value `B`. -/
theorem C2_witness :
    webtest_submit_fields form0 (Option.some "save") (Option.some 1) Option.none =
      webtest_submit_fields form0 (Option.some "save") Option.none
        (Option.some (PyVal.str "B")) :=
  C2_value_selection_matches_index form0 "save" 1 saveButtonB (by decide) (by decide)
    (by decide)

theorem nonsubmit_entries_cons (sn : Option String) (p : Option String × FormField)
    (rest : List (Option String × FormField)) :
    nonsubmit_entries sn (p :: rest) =
      (match p.1 with
       | Option.none => []
       | Option.some n => if sn = Option.some n then [] else field_submission n p.2) ++
      nonsubmit_entries sn rest := by
  simp [nonsubmit_entries]

/-- Whatever submit button is being selected, the output entries whose name
differs from the submit name are exactly the non-submit-name field
contributions, in declaration order. -/
theorem filter_loop_ne (nm : String) (idx : Option Nat) (sv : Option PyVal) :
    ∀ (fields : List (Option String × FormField)) (c : Nat),
    (submit_fields_loop (Option.some nm) idx sv fields c).filter
        (fun e => decide (e.1 ≠ nm)) =
      nonsubmit_entries (Option.some nm) fields := by
  intro fields
  induction fields with
  | nil => intro c; simp [submit_fields_loop, nonsubmit_entries]
  | cons p rest ih =>
    intro c
    obtain ⟨fn, f⟩ := p
    cases fn with
    | none =>
      rw [submit_fields_loop_cons_noname, nonsubmit_entries_cons]
      simpa using ih c
    | some name =>
      by_cases hn : name = nm
      · subst hn
        rw [submit_fields_loop_cons_submit, nonsubmit_entries_cons]
        have hdrop : ∀ (l : List (String × OutItem)), (∀ e ∈ l, e.1 = name) →
            l.filter (fun e => decide (e.1 ≠ name)) = [] := fun l hl =>
          List.filter_eq_nil_iff.mpr fun e he => by simp [hl e he]
        rw [List.filter_append, List.filter_append]
        rw [hdrop _ (by cases idx with
          | none => simp
          | some i =>
            intro e he
            by_cases hci : c = i
            · simp [hci] at he; simp [he]
            · simp [hci] at he)]
        rw [hdrop _ (by cases sv with
          | none => simp
          | some v =>
            intro e he
            by_cases hfv : f.value_if_submitted = v
            · simp [hfv] at he; simp [he]
            · simp [hfv] at he)]
        simpa using ih (c + 1)
      · rw [submit_fields_loop_cons_other _ _ _ _ _ _ _
              (fun h => hn (Option.some.inj h).symm),
            nonsubmit_entries_cons, List.filter_append, field_submission_filter_ne,
            if_neg hn, ih c]
        have hnn : ¬ nm = name := fun h => hn h.symm
        have : (Option.some nm = Option.some name) = False := by simp [hnn]
        simp [this]

/-- Claim C6: the collector walks the fields in declaration order; every
non-submit-name field contributes its values — nothing for `None`, the
`File` field itself, one entry per element of a list value (so a value
`[a, b]` expands to `(name, a)` then `(name, b)`), a single entry for a
scalar — and these contributions appear in the output exactly, in order. -/
theorem C6_list_values_expand (form : Form) (nm : String) (idx : Option Nat)
    (sv : Option PyVal) (hvalid : (idx.isSome && sv.isSome) = false)
    (a b : String) (n : String) (f : FormField) :
    (∃ out, webtest_submit_fields form (Option.some nm) idx sv = Except.ok out ∧
      out.filter (fun e => decide (e.1 ≠ nm)) =
        nonsubmit_entries (Option.some nm) form.field_order) ∧
    (f.value = PyVal.list [a, b] → f.is_file = false →
      field_submission n f =
        [(n, OutItem.pv (PyVal.str a)), (n, OutItem.pv (PyVal.str b))]) := by
  constructor
  · refine ⟨submit_fields_loop (Option.some nm)
        (if idx.isNone && sv.isNone then Option.some 0 else idx) sv form.field_order 0,
      ?_, filter_loop_ne nm _ sv form.field_order 0⟩
    simp [webtest_submit_fields, hvalid]
  · intro hv hf
    simp [field_submission, hv, hf]

/-- Witness for C6 on `form0`: with no button selected, the non-`save`
entries are exactly the title entry followed by the two tag entries, and
the list-valued tags field expands to those two entries. -/
theorem C6_witness :
    (∃ out, webtest_submit_fields form0 (Option.some "save") Option.none Option.none =
        Except.ok out ∧
      out.filter (fun e => decide (e.1 ≠ "save")) =
        nonsubmit_entries (Option.some "save") form0.field_order) ∧
    field_submission "tags" tagsField =
      [("tags", OutItem.pv (PyVal.str "a")), ("tags", OutItem.pv (PyVal.str "b"))] :=
  ⟨(C6_list_values_expand form0 "save" Option.none Option.none (by decide)
      "a" "b" "tags" tagsField).1,
   (C6_list_values_expand form0 "save" Option.none Option.none (by decide)
      "a" "b" "tags" tagsField).2 (by decide) (by decide)⟩

/-- Deleting a `None`-valued field whose name differs from the submit name
anywhere in the field list leaves the loop output unchanged, for any
running index. -/
theorem loop_skips_none_valued (sn : Option String) (idx : Option Nat) (sv : Option PyVal)
    (n : String) (f : FormField) (suf : List (Option String × FormField))
    (hn : sn ≠ Option.some n) (hv : f.value = PyVal.none) :
    ∀ (pre : List (Option String × FormField)) (c : Nat),
    submit_fields_loop sn idx sv (pre ++ (Option.some n, f) :: suf) c =
      submit_fields_loop sn idx sv (pre ++ suf) c := by
  intro pre
  induction pre with
  | nil =>
    intro c
    rw [List.nil_append, List.nil_append, submit_fields_loop_cons_other _ _ _ _ _ _ _ hn]
    simp [field_submission, hv]
  | cons q pre ih =>
    intro c
    obtain ⟨qn, qf⟩ := q
    cases qn with
    | none =>
      rw [List.cons_append, List.cons_append, submit_fields_loop_cons_noname,
        submit_fields_loop_cons_noname]
      exact ih c
    | some qname =>
      by_cases hq : sn = Option.some qname
      · subst hq
        rw [List.cons_append, List.cons_append, submit_fields_loop_cons_submit,
          submit_fields_loop_cons_submit, ih (c + 1)]
      · rw [List.cons_append, List.cons_append,
          submit_fields_loop_cons_other _ _ _ _ _ _ _ hq,
          submit_fields_loop_cons_other _ _ _ _ _ _ _ hq, ih c]

/-- Claim C8: a non-submit field whose value is `None` contributes no entry
to the output: the result on a form containing such a field equals the
result on the form with that field removed. -/
theorem C8_none_valued_field_contributes_nothing (sn : Option String) (idx : Option Nat)
    (sv : Option PyVal) (pre suf : List (Option String × FormField)) (n : String)
    (f : FormField) (hns : f.is_submit = false) (hn : sn ≠ Option.some n)
    (hv : f.value = PyVal.none) :
    webtest_submit_fields ⟨pre ++ (Option.some n, f) :: suf⟩ sn idx sv =
      webtest_submit_fields ⟨pre ++ suf⟩ sn idx sv := by
  by_cases hb : idx.isSome && sv.isSome
  · simp [webtest_submit_fields, hb]
  · simp only [webtest_submit_fields, hb, Bool.false_eq_true, if_false, Except.ok.injEq]
    exact loop_skips_none_valued sn _ sv n f suf hn hv pre 0

/-- Witness for C8: inserting a `None`-valued field named `other` into
`form0`-like fields leaves the result unchanged. -/
theorem C8_witness :
    webtest_submit_fields
        ⟨[(Option.some "title", titleField)] ++
          (Option.some "other", noneValuedField) :: [(Option.some "save", saveButtonA)]⟩
        (Option.some "save") Option.none Option.none =
      webtest_submit_fields ⟨[(Option.some "title", titleField)] ++
          [(Option.some "save", saveButtonA)]⟩
        (Option.some "save") Option.none Option.none :=
  C8_none_valued_field_contributes_nothing (Option.some "save") Option.none Option.none
    [(Option.some "title", titleField)] [(Option.some "save", saveButtonA)]
    "other" noneValuedField (by decide) (by decide) (by decide)

/-- With no submit name, the submit branch of the loop is never taken and
every named field contributes via the value branch. -/
theorem loop_no_submit_name (idx : Option Nat) (sv : Option PyVal) :
    ∀ (fields : List (Option String × FormField)) (c : Nat),
    submit_fields_loop Option.none idx sv fields c =
      nonsubmit_entries Option.none fields := by
  intro fields
  induction fields with
  | nil => intro c; simp [submit_fields_loop, nonsubmit_entries]
  | cons p rest ih =>
    intro c
    obtain ⟨fn, f⟩ := p
    cases fn with
    | none =>
      rw [submit_fields_loop_cons_noname, nonsubmit_entries_cons]
      simpa using ih c
    | some name =>
      rw [submit_fields_loop_cons_other _ _ _ _ _ _ _ (by simp),
        nonsubmit_entries_cons, ih c]
      simp

/-- Claim C10: with no name, no index and no value, the collector (which
internally defaults the index to 0) treats no field as the selected submit
button: on a form whose submit buttons carry a `None` value (as webtest
submit buttons do), the output consists exactly of the non-submit field
values, with no submit-button entry. -/
theorem C10_no_name_yields_no_submit_entry (form : Form)
    (hsub : ∀ p ∈ form.field_order, p.2.is_submit = true → p.2.value = PyVal.none) :
    webtest_submit_fields form Option.none Option.none Option.none =
      Except.ok (form.field_order.flatMap fun p =>
        match p.1 with
        | Option.none => []
        | Option.some n => if p.2.is_submit then [] else field_submission n p.2) := by
  have hmain : ∀ (fields : List (Option String × FormField)),
      (∀ p ∈ fields, p.2.is_submit = true → p.2.value = PyVal.none) →
      nonsubmit_entries Option.none fields = fields.flatMap fun p =>
        match p.1 with
        | Option.none => []
        | Option.some n => if p.2.is_submit then [] else field_submission n p.2 := by
    intro fields
    induction fields with
    | nil => intro _; rfl
    | cons p rest ih =>
      intro h
      have hrest := ih fun q hq => h q (List.mem_cons_of_mem _ hq)
      obtain ⟨pn, pf⟩ := p
      rw [nonsubmit_entries_cons, List.flatMap_cons, hrest]
      cases pn with
      | none => rfl
      | some n =>
        by_cases hs : pf.is_submit
        · have hv : pf.value = PyVal.none := h (Option.some n, pf) (List.mem_cons_self _ _) hs
          simp [hs, field_submission, hv]
        · simp [hs]
  simp only [webtest_submit_fields]
  rw [loop_no_submit_name, hmain form.field_order hsub]
  rfl

/-- Witness for C10 on `form0`: the output is the title entry and the two
expanded tag entries, with no entry for either `save` button. -/
theorem C10_witness :
    webtest_submit_fields form0 Option.none Option.none Option.none =
      Except.ok [("title", OutItem.pv (PyVal.str "My Title")),
        ("tags", OutItem.pv (PyVal.str "a")), ("tags", OutItem.pv (PyVal.str "b"))] := by
  rw [C10_no_name_yields_no_submit_entry form0 (by decide)]
  rfl

/-! ### Dict lemmas -/

theorem PyDict.get_append_some (d d' : PyDict) (k : String) (v : PyObj)
    (h : PyDict.get d k = Option.some v) :
    PyDict.get (d ++ d') k = Option.some v := by
  induction d with
  | nil => simp [PyDict.get] at h
  | cons p rest ih =>
    rw [List.cons_append]
    by_cases hp : p.1 = k
    · simpa [PyDict.get, hp] using h
    · rw [PyDict.get, if_neg hp] at h ⊢
      exact ih h

theorem PyDict.get_append_right (d : PyDict) (k : String) (v : PyObj)
    (h : PyDict.hasKey d k = false) :
    PyDict.get (d ++ [(k, v)]) k = Option.some v := by
  induction d with
  | nil => simp [PyDict.get]
  | cons p rest ih =>
    simp only [PyDict.hasKey, List.any_cons, Bool.or_eq_false_iff] at h
    have hp : ¬ p.1 = k := by simpa using h.1
    rw [List.cons_append, PyDict.get, if_neg hp]
    exact ih h.2

theorem PyDict.get_setdefault_preserve (d : PyDict) (k k' : String) (v v' : PyObj)
    (h : PyDict.get d k = Option.some v) :
    PyDict.get (PyDict.setdefault d k' v') k = Option.some v := by
  rw [PyDict.setdefault]
  split
  · exact h
  · exact PyDict.get_append_some d _ k v h

theorem PyDict.get_setdefault_absent (d : PyDict) (k : String) (v : PyObj)
    (h : PyDict.hasKey d k = false) :
    PyDict.get (PyDict.setdefault d k v) k = Option.some v := by
  rw [PyDict.setdefault, if_neg (by simp [h])]
  exact PyDict.get_append_right d k v h

theorem PyDict.hasKey_setdefault_other (d : PyDict) (k k' : String) (v : PyObj)
    (h : PyDict.hasKey d k = false) (hk : ¬ k' = k) :
    PyDict.hasKey (PyDict.setdefault d k' v) k = false := by
  rw [PyDict.setdefault]
  split
  · exact h
  · simp [PyDict.hasKey, List.any_append] at h ⊢
    exact ⟨h, hk⟩

theorem PyDict.hasKey_setdefault_self (d : PyDict) (k : String) (v : PyObj) :
    PyDict.hasKey (PyDict.setdefault d k v) k = true := by
  rw [PyDict.setdefault]
  split
  · assumption
  · simp [PyDict.hasKey, List.any_append]

theorem PyDict.hasKey_setdefault_of (d : PyDict) (k k' : String) (v : PyObj)
    (h : PyDict.hasKey d k = true) :
    PyDict.hasKey (PyDict.setdefault d k' v) k = true := by
  rw [PyDict.setdefault]
  split
  · exact h
  · simp [PyDict.hasKey, List.any_append] at h ⊢
    exact Or.inl h

theorem PyDict.setdefault_eq_append (d : PyDict) (k : String) (v : PyObj) :
    ∃ app, PyDict.setdefault d k v = d ++ app := by
  rw [PyDict.setdefault]
  split
  · exact ⟨[], by simp⟩
  · exact ⟨[(k, v)], rfl⟩

/-- Claim C4: `call_auth` fails with the corresponding assertion error when
the context lacks `user`, or has `user` but lacks `model` — in either case
the error does not depend on the auth registry, so no dispatch has
occurred — and when both keys are present it dispatches to the named auth
function and returns its result unchanged. -/
theorem C4_call_auth_requires_user_and_model {ρ : Type}
    (auth_registry : String → PyDict → PyDict → ρ) (auth_name : String)
    (context kwargs : PyDict) :
    (PyDict.hasKey context "user" = false →
      call_auth auth_registry auth_name context kwargs =
        Except.error (PyError.assertionError
          "Test methods must put a user name in the context dict")) ∧
    (PyDict.hasKey context "user" = true → PyDict.hasKey context "model" = false →
      call_auth auth_registry auth_name context kwargs =
        Except.error (PyError.assertionError
          "Test methods must put a model in the context dict")) ∧
    (PyDict.hasKey context "user" = true → PyDict.hasKey context "model" = true →
      call_auth auth_registry auth_name context kwargs =
        Except.ok (auth_registry auth_name context kwargs)) := by
  refine ⟨fun hu => ?_, fun hu hm => ?_, fun hu hm => ?_⟩ <;>
    simp [call_auth, hu]
  · simp [hm]
  · simp [hm]

/-- Witness for C4: an empty context fails on `user`, a user-only context
fails on `model`, and a user+model context dispatches and returns the auth
function's dict. -/
theorem C4_witness :
    call_auth (constRegistry [("success", PyObj.bool true)]) "user_update" [] [] =
      Except.error (PyError.assertionError
        "Test methods must put a user name in the context dict") ∧
    call_auth (constRegistry [("success", PyObj.bool true)]) "user_update" ctxUserOnly [] =
      Except.error (PyError.assertionError
        "Test methods must put a model in the context dict") ∧
    call_auth (constRegistry [("success", PyObj.bool true)]) "user_update" ctxUserModel [] =
      Except.ok [("success", PyObj.bool true)] :=
  ⟨(C4_call_auth_requires_user_and_model (constRegistry [("success", PyObj.bool true)])
      "user_update" [] []).1 (by decide),
   (C4_call_auth_requires_user_and_model (constRegistry [("success", PyObj.bool true)])
      "user_update" ctxUserOnly []).2.1 (by decide) (by decide),
   (C4_call_auth_requires_user_and_model (constRegistry [("success", PyObj.bool true)])
      "user_update" ctxUserModel []).2.2 (by decide) (by decide)⟩

/-- Claim C5: `call_action` dispatches to the named action with the
defaulted context and the keyword arguments, returning the action's result;
a missing `user` key is defaulted to the anonymous local user `127.0.0.1`,
a missing `ignore_auth` key is defaulted to True, and every caller-supplied
entry keeps its caller-supplied value. -/
theorem C5_call_action_defaults_and_dispatch {ρ : Type}
    (get_action : String → PyDict → PyDict → ρ) (action_name : String)
    (context : Option PyDict) (kwargs : PyDict) :
    (call_action get_action action_name context kwargs).1 =
      get_action action_name (call_action get_action action_name context kwargs).2 kwargs ∧
    (PyDict.hasKey (context.getD []) "user" = false →
      PyDict.get (call_action get_action action_name context kwargs).2 "user" =
        Option.some (PyObj.str "127.0.0.1")) ∧
    (PyDict.hasKey (context.getD []) "ignore_auth" = false →
      PyDict.get (call_action get_action action_name context kwargs).2 "ignore_auth" =
        Option.some (PyObj.bool true)) ∧
    (∀ (k : String) (v : PyObj), PyDict.get (context.getD []) k = Option.some v →
      PyDict.get (call_action get_action action_name context kwargs).2 k =
        Option.some v) := by
  have hctx : (call_action get_action action_name context kwargs).2 =
      PyDict.setdefault
        (PyDict.setdefault (context.getD []) "user" (PyObj.str "127.0.0.1"))
        "ignore_auth" (PyObj.bool true) := by
    cases context <;> rfl
  refine ⟨by cases context <;> rfl, fun hu => ?_, fun hia => ?_, fun k v hk => ?_⟩
  · rw [hctx]
    exact PyDict.get_setdefault_preserve _ _ _ _ _
      (PyDict.get_setdefault_absent _ _ _ hu)
  · rw [hctx]
    exact PyDict.get_setdefault_absent _ _ _
      (PyDict.hasKey_setdefault_other _ _ _ _ hia (by decide))
  · rw [hctx]
    exact PyDict.get_setdefault_preserve _ _ _ _ _
      (PyDict.get_setdefault_preserve _ _ _ _ _ hk)

/-- Witness for C5: with a caller context containing only `apikey`, the
dispatched context carries the defaulted user and bypass flag and keeps the
caller's entry. -/
theorem C5_witness :
    PyDict.get (call_action (constRegistry []) "user_create"
        (Option.some ctxApikey) []).2 "user" = Option.some (PyObj.str "127.0.0.1") ∧
    PyDict.get (call_action (constRegistry []) "user_create"
        (Option.some ctxApikey) []).2 "ignore_auth" = Option.some (PyObj.bool true) ∧
    PyDict.get (call_action (constRegistry []) "user_create"
        (Option.some ctxApikey) []).2 "apikey" = Option.some (PyObj.str "xyz") :=
  ⟨(C5_call_action_defaults_and_dispatch (constRegistry []) "user_create"
      (Option.some ctxApikey) []).2.1 (by decide),
   (C5_call_action_defaults_and_dispatch (constRegistry []) "user_create"
      (Option.some ctxApikey) []).2.2.1 (by decide),
   (C5_call_action_defaults_and_dispatch (constRegistry []) "user_create"
      (Option.some ctxApikey) []).2.2.2 "apikey" (PyObj.str "xyz") (by decide)⟩

/-- Claim C9: `call_action` mutates the caller's context dict in place: the
dict the caller holds after the call is its own dict possibly extended at
the end (never a rebuilt private copy), and it now contains the `user` and
`ignore_auth` keys. -/
theorem C9_call_action_mutates_context_in_place {ρ : Type}
    (get_action : String → PyDict → PyDict → ρ) (action_name : String)
    (ctx kwargs : PyDict) :
    ∃ appended,
      (call_action get_action action_name (Option.some ctx) kwargs).2 =
        ctx ++ appended ∧
      PyDict.hasKey (call_action get_action action_name (Option.some ctx) kwargs).2
        "user" = true ∧
      PyDict.hasKey (call_action get_action action_name (Option.some ctx) kwargs).2
        "ignore_auth" = true := by
  have hctx : (call_action get_action action_name (Option.some ctx) kwargs).2 =
      PyDict.setdefault (PyDict.setdefault ctx "user" (PyObj.str "127.0.0.1"))
        "ignore_auth" (PyObj.bool true) := rfl
  obtain ⟨app1, h1⟩ := PyDict.setdefault_eq_append ctx "user" (PyObj.str "127.0.0.1")
  obtain ⟨app2, h2⟩ := PyDict.setdefault_eq_append
    (PyDict.setdefault ctx "user" (PyObj.str "127.0.0.1")) "ignore_auth" (PyObj.bool true)
  refine ⟨app1 ++ app2, ?_, ?_, ?_⟩
  · rw [hctx, h2, h1, List.append_assoc]
  · rw [hctx]
    exact PyDict.hasKey_setdefault_of _ _ _ _ (PyDict.hasKey_setdefault_self _ _ _)
  · rw [hctx]
    exact PyDict.hasKey_setdefault_self _ _ _

/-- Assigning an absent key appends the pair at the end. -/
theorem PyDict.set_eq_append (k : String) (v : PyObj) :
    ∀ (d : PyDict), PyDict.hasKey d k = false → PyDict.set d k v = d ++ [(k, v)] := by
  intro d
  induction d with
  | nil => intro _; rfl
  | cons p rest ih =>
    intro h
    simp only [PyDict.hasKey, List.any_cons, Bool.or_eq_false_iff] at h
    have hp : ¬ p.1 = k := by simpa using h.1
    rw [PyDict.set, if_neg hp, List.cons_append, ih h.2]

/-- `dst.update(src)` with fresh, pairwise distinct keys appends `src`. -/
theorem PyDict.update_eq_append :
    ∀ (src dst : PyDict), (src.map Prod.fst).Nodup →
    (∀ p ∈ src, PyDict.hasKey dst p.1 = false) →
    PyDict.update dst src = dst ++ src := by
  intro src
  induction src with
  | nil => intro dst _ _; simp [PyDict.update]
  | cons q rest ih =>
    intro dst hnodup hfresh
    have hq : PyDict.set dst q.1 q.2 = dst ++ [q] :=
      PyDict.set_eq_append q.1 q.2 dst (hfresh q (List.mem_cons_self _ _))
    have hnodup' : (rest.map Prod.fst).Nodup := by
      rw [List.map_cons, List.nodup_cons] at hnodup
      exact hnodup.2
    have hhead : q.1 ∉ rest.map Prod.fst := by
      rw [List.map_cons, List.nodup_cons] at hnodup
      exact hnodup.1
    have hfresh' : ∀ p ∈ rest, PyDict.hasKey (dst ++ [q]) p.1 = false := by
      intro p hp
      have h1 : PyDict.hasKey dst p.1 = false := hfresh p (List.mem_cons_of_mem _ hp)
      have h2 : ¬ q.1 = p.1 := fun hqp =>
        hhead (hqp ▸ List.mem_map_of_mem Prod.fst hp)
      simp [PyDict.hasKey, List.any_append] at h1 ⊢
      exact ⟨h1, h2⟩
    have hstep : PyDict.update dst (q :: rest) = PyDict.update (dst ++ [q]) rest := by
      simp only [PyDict.update, List.foldl_cons, hq]
    rw [hstep, ih (dst ++ [q]) hnodup' hfresh', List.append_assoc]
    rfl

/-- Claim C7: whatever config changes the class setup applies (including
the `ckan.legacy_templates` key set by the test-app factory) and whatever
key mutations the tests perform afterwards, `teardown_class` restores the
global configuration to the snapshot taken at the start of `setup_class`. -/
theorem C7_teardown_restores_config (apply_config_changes : PyDict → PyDict)
    (ops : List ConfigOp) (config : PyDict)
    (hkeys : (config.map Prod.fst).Nodup) :
    teardown_class
      ⟨applyConfigOps (setup_class apply_config_changes config).config ops,
        (setup_class apply_config_changes config).original_config⟩ = config := by
  have hup : PyDict.update [] config = [] ++ config :=
    PyDict.update_eq_append config [] hkeys (fun p _ => rfl)
  simpa [teardown_class, setup_class, PyDict.clear] using hup

/-- Witness for C7 on `cfg0`: after a class setup that adds a plugins key,
plus test mutations that overwrite one original key and delete the other,
teardown restores exactly `cfg0`. -/
theorem C7_witness :
    teardown_class
      ⟨applyConfigOps
          (setup_class (fun c => PyDict.set c "ckan.plugins" (PyObj.str "stats"))
            cfg0).config
          [ConfigOp.set "ckan.site_title" (PyObj.str "Changed"),
           ConfigOp.del "sqlalchemy.url"],
        (setup_class (fun c => PyDict.set c "ckan.plugins" (PyObj.str "stats"))
            cfg0).original_config⟩ = cfg0 :=
  C7_teardown_restores_config
    (fun c => PyDict.set c "ckan.plugins" (PyObj.str "stats"))
    [ConfigOp.set "ckan.site_title" (PyObj.str "Changed"),
     ConfigOp.del "sqlalchemy.url"] cfg0 (by decide)
